import Mathlib

/-!
Shallow embedding of `pandas_alive/_base_chart.py` (`_BaseChart`): the column
selector `get_data_cols`, the color resolver `get_colors`, the period-label
validator `get_period_label`, the period annotator `show_period`, the y-axis
part of `set_x_y_limits`, and the interpolation engine `get_interpolated_df`.
Numeric cell values are modelled as rationals, matplotlib text elements as a
list of their string contents, and Python exceptions as `Except String`.
-/

namespace PandasAlive

/-! ### Column selector: `get_data_cols` (lines 322-346) -/

/-- A DataFrame column as seen by `get_data_cols`: a (hashable) label,
modelled as a natural number, and whether its dtype is a numpy number
(`np.issubdtype(df[col].dtype, np.number)`). -/
structure Column where
  name : Nat
  isNumeric : Bool
deriving DecidableEq, Repr

/-- The message of the missing-column exception of `get_data_cols`
(the `%s` interpolation of the column label made explicit). -/
def missing_column_msg (n : Nat) : String :=
  "Could not find " ++ toString n ++ " in the columns of the provided DataFrame/Series. Please provide for the <y> parameter either a column name of the DataFrame/Series or an array of the same length."

/-- The message of the no-numeric-data exception of `get_data_cols`. -/
def no_numeric_msg : String := "No numeric data columns found for plotting."

/-- The loop of `get_data_cols`: iterate over the columns, raise if a column is
not a member of `df.columns` (`allCols`), and collect the labels of the
numeric columns in order. -/
def scanCols (allCols : List Column) : List Column → Except String (List Nat)
  | [] => .ok []
  | c :: rest =>
    if c ∈ allCols then
      match scanCols allCols rest with
      | .error e => .error e
      | .ok tail => .ok (if c.isNumeric then c.name :: tail else tail)
    else .error (missing_column_msg c.name)

/-- `get_data_cols`: keep the numeric columns (in input order), raise if none
remain, and stringify the kept labels (`[str(col) for col in data_cols]`). -/
def get_data_cols (cols : List Column) : Except String (List String) :=
  match scanCols cols cols with
  | .error e => .error e
  | .ok dataCols =>
    if dataCols.isEmpty then .error no_numeric_msg
    else .ok (dataCols.map toString)

/-! ### Color resolver: `get_colors` (lines 196-232) and `DARK24` -/

/-- The `DARK24` palette (lines 28-53). -/
def DARK24 : List String :=
  ["#2E91E5", "#E15F99", "#1CA71C", "#FB0D0D", "#DA16FF", "#222A2A",
   "#B68100", "#750D86", "#EB663B", "#511CFB", "#00A08B", "#FB00D1",
   "#FC0080", "#B2828D", "#6C7C32", "#778AAE", "#862A16", "#A777F1",
   "#620042", "#1616A7", "#DA60CA", "#6C4516", "#0D2A63", "#AF0038"]

/-- The k-th entry of a matplotlib colormap, `cmap(range(cmap.N))[k]`,
modelled as an opaque string tag. -/
def cmapEntry (k : Nat) : String := "cmap_color_" ++ toString k

/-- `matplotlib.colors.to_rgba` on a named color, modelled as an opaque
string tag. -/
def to_rgba (c : String) : String := "rgba:" ++ c

/-- The input of `get_colors`, separated by the branch the Python dynamic
dispatch takes: the literal string `"dark24"`, a string naming a colormap
with `N` entries, a string that `to_rgba` accepts as a single color, a string
that names neither, a `Colormap` instance with `N` entries, a plain list of
colors, or an array-like with `tolist`. -/
inductive CmapSpec where
  | dark24 : CmapSpec
  | cmapName : Nat → CmapSpec
  | singleColor : String → CmapSpec
  | invalidName : CmapSpec
  | colormapInst : Nat → CmapSpec
  | colorList : List String → CmapSpec
  | arrayLike : List String → CmapSpec
deriving DecidableEq, Repr

/-- `get_colors`: `"dark24"` yields the `DARK24` list; a colormap (by name or
instance) yields its `N` entries; a single named color yields
`[to_rgba(cmap)] * len(self.get_data_cols(self.df))`; a list or array-like is
used directly; anything else raises. -/
def get_colors (cmap : CmapSpec) (cols : List Column) : Except String (List String) :=
  match cmap with
  | .dark24 => .ok DARK24
  | .cmapName n => .ok ((List.range n).map cmapEntry)
  | .colormapInst n => .ok ((List.range n).map cmapEntry)
  | .singleColor c =>
    match get_data_cols cols with
    | .error e => .error e
    | .ok dc => .ok (List.replicate dc.length (to_rgba c))
  | .invalidName => .error "Provide a suitable color name or color map as per matplotlib"
  | .colorList cs => .ok cs
  | .arrayLike cs => .ok cs

/-! ### Period label validator: `get_period_label` (lines 167-194) -/

/-- A value of the period-label kwargs dict (`int`, `float` or `str`). -/
inductive PVal where
  | num : ℚ → PVal
  | str : String → PVal
deriving DecidableEq, Repr

/-- The argument of `get_period_label`: a bool or a kwargs dict. -/
inductive PeriodLabelArg where
  | bool : Bool → PeriodLabelArg
  | dict : List (String × PVal) → PeriodLabelArg
deriving DecidableEq, Repr

/-- Python dict key membership (`k in d`). -/
def pdict_hasKey (d : List (String × PVal)) (k : String) : Bool :=
  d.any (fun p => p.1 = k)

/-- Python truthiness of the `period_label` argument: `False` and the empty
dict are falsy. -/
def pl_truthy : PeriodLabelArg → Bool
  | .bool b => b
  | .dict d => !d.isEmpty

/-- The `ValueError` message of `get_period_label`. -/
def period_label_error : String :=
  "`period_label` dictionary must have keys for \"x\" and \"y\""

/-- The default kwargs dict used for `period_label=True`
(`{"size": 12, "x": 0.9, "y": 0.1, "ha": "right"}`). -/
def default_period_label : List (String × PVal) :=
  [("size", .num 12), ("x", .num (9/10)), ("y", .num (1/10)), ("ha", .str "right")]

/-- `get_period_label`: a falsy argument returns `False` (modelled `none`);
`True` returns the default bottom-right kwargs; a (truthy) dict must contain
the keys `"x"` and `"y"` and is returned as is. -/
def get_period_label (pl : PeriodLabelArg) : Except String (Option (List (String × PVal))) :=
  if pl_truthy pl = false then .ok none
  else
    match pl with
    | .bool _ => .ok (some default_period_label)
    | .dict d =>
      if pdict_hasKey d "x" = false ∨ pdict_hasKey d "y" = false then
        .error period_label_error
      else .ok (some d)

/-! ### Period annotator: `show_period` (lines 521-563) -/

/-- The `period_summary_func` callable: its `__name__` and the function from
the current frame's row of values to the returned kwargs dict (whose values
are modelled by what `ax.text` would display, so only the `"s"` entry is kept
as a string; the keys are what the validation inspects). -/
structure SummaryFn where
  name : String
  fn : List ℚ → List (String × String)

/-- The configuration `show_period` reads from `self`: the truthiness of
`period_label` (a validated label is a truthy value), the optional
`period_fmt`, and the optional `period_summary_func`. -/
structure PeriodConfig where
  period_label : Bool
  period_fmt : Option String
  period_summary_func : Option SummaryFn

/-- Key membership in the dict returned by a summary function. -/
def sdict_hasKey (d : List (String × String)) (k : String) : Bool :=
  d.any (fun p => p.1 = k)

/-- The `ValueError` message of the summary validation in `show_period`,
naming the offending callable. -/
def summary_error_msg (name : String) : String :=
  "The dictionary returned from `" ++ name ++ "` must contain \"x\", \"y\", and \"s\""

/-- The period string `s` of frame `i`: with a `period_fmt` the index value is
formatted through it (`strftime` or `str.format`, abstracted as tagging with
the format string), otherwise `str` of the index value. -/
def period_string (cfg : PeriodConfig) (idxStr : List String) (i : Nat) : String :=
  match cfg.period_fmt with
  | some fmt => fmt ++ idxStr.getD i ""
  | none => idxStr.getD i ""

/-- The period-label branch of `show_period` (lines 531-549): when
`period_label` is truthy, create the text element only if
`len(self.ax.texts) == 0` (`ax.text` appends it), else update `texts[0]` in
place. The text elements of the axes are modelled as the list of their
string contents. -/
def label_step (cfg : PeriodConfig) (idxStr : List String) (i : Nat)
    (texts : List String) : List String :=
  if cfg.period_label then
    if texts.length = 0 then texts ++ [period_string cfg idxStr i]
    else texts.set 0 (period_string cfg idxStr i)
  else texts

/-- One invocation of `show_period` on frame `i`: the label branch runs
first (`label_step`); then the summary branch validates the dict returned by
`period_summary_func` on the values `self.df.iloc[i]`, raising the naming
`ValueError` when `"x"`, `"y"` or `"s"` is missing, and otherwise creates a
text element when `len(self.ax.texts) != 2` or updates `texts[1]` in
place. -/
def show_period (cfg : PeriodConfig) (idxStr : List String) (rows : List (List ℚ))
    (i : Nat) (texts : List String) : Except String (List String) :=
  match cfg.period_summary_func with
  | none => .ok (label_step cfg idxStr i texts)
  | some f =>
    if sdict_hasKey (f.fn (rows.getD i [])) "x" = false ∨
        sdict_hasKey (f.fn (rows.getD i [])) "y" = false ∨
        sdict_hasKey (f.fn (rows.getD i [])) "s" = false then
      .error (summary_error_msg f.name)
    else if (label_step cfg idxStr i texts).length ≠ 2 then
      .ok (label_step cfg idxStr i texts ++ [((f.fn (rows.getD i [])).lookup "s").getD ""])
    else
      .ok ((label_step cfg idxStr i texts).set 1 (((f.fn (rows.getD i [])).lookup "s").getD ""))

/-- `show_period` applied to a sequence of frames in order, threading the
text elements of the axes. -/
def show_period_run (cfg : PeriodConfig) (idxStr : List String) (rows : List (List ℚ)) :
    List Nat → List String → Except String (List String)
  | [], texts => .ok texts
  | i :: is, texts =>
    match show_period cfg idxStr rows i texts with
    | .error e => .error e
    | .ok t2 => show_period_run cfg idxStr rows is t2

/-! ### Axis scaler: the y-limit part of `set_x_y_limits` (lines 284-297) -/

/-- `numpy` max over a nonempty list of values (`df.values.max()`). -/
def vmax : List ℚ → ℚ
  | [] => 0
  | [x] => x
  | x :: y :: xs => max x (vmax (y :: xs))

/-- `numpy` min over a nonempty list of values (`df.values.min()`). -/
def vmin : List ℚ → ℚ
  | [] => 0
  | [x] => x
  | x :: y :: xs => min x (vmin (y :: xs))

/-- The y-limit computation of `set_x_y_limits`: `self.df` is the rows of the
full interpolated table, `i` the frame, `fixed_max` the branch selector. The
padding `ylim_scale` is 5% of the global range of `self.df.values`; the
bottom padding is zeroed when the global min is `>= 0` and the top padding
when the global max is `<= 0`; the `fixed_max` branch pads the global
min/max, the per-frame branch pads the min/max of `self.df.iloc[:i+1]`.
Returns the `(bottom, top)` pair passed to `ax.set_ylim`. -/
def y_limits (df : List (List ℚ)) (i : Nat) (fixed_max : Bool) : ℚ × ℚ :=
  let cells := df.flatten
  let ylim_scale := (vmax cells - vmin cells) * (5 / 100)
  let ylim_bot_scale := if 0 ≤ vmin cells then 0 else ylim_scale
  let ylim_top_scale := if vmax cells ≤ 0 then 0 else ylim_scale
  if fixed_max then
    (vmin cells - ylim_bot_scale, vmax cells + ylim_top_scale)
  else
    let fcells := (df.take (i + 1)).flatten
    (vmin fcells - ylim_bot_scale, vmax fcells + ylim_top_scale)

/-! ### Interpolation engine: `get_interpolated_df` (lines 348-390) -/

/-- The output row count: `reset_index` gives positions `0..n-1`, scaled by
`steps_per_period` the last position is `(n-1)*steps`, and
`new_index = range(interpolated_df.index[-1] + 1)`. -/
def new_len (n steps : Nat) : Nat := (n - 1) * steps + 1

/-- Linear interpolation of a column known at the positions `q*steps`
(`DataFrame.interpolate()`, default positional linear method): at position
`p` with `q = p / steps` and `r = p % steps` the value is
`col[q] + (r/steps) * (col[q+1] - col[q])`. -/
def lin_val (vals : List ℚ) (steps p : Nat) : ℚ :=
  let q : Nat := p / steps
  let r : Nat := p % steps
  vals.getD q 0 + ((r : ℚ) / (steps : ℚ)) * (vals.getD (q + 1) 0 - vals.getD q 0)

/-- The index column of the interpolated table: with `interpolate_period` it
is linearly interpolated (`.interpolate()`), otherwise forward-filled
(`.fillna(method="ffill")`), so position `p` holds the index value of the
last real period `p / steps`. -/
def interp_index (idx : List ℚ) (steps : Nat) (interpolate_period : Bool) : List ℚ :=
  (List.range (new_len idx.length steps)).map fun p =>
    if interpolate_period then lin_val idx steps p else idx.getD (p / steps) 0

/-- One data column of the interpolated table (`n` is the original row
count). -/
def interp_col (vals : List ℚ) (steps n : Nat) : List ℚ :=
  (List.range (new_len n steps)).map fun p => lin_val vals steps p

/-- `get_interpolated_df` on a table with (numeric) index `idx` and data
columns `data`: reset the index, scale the positions by `steps_per_period`,
reindex to the dense range, fill the index column (interpolated or
forward-filled), restore it as index, and linearly interpolate the data
columns. Returns the output index and the output data columns. -/
def get_interpolated_df (idx : List ℚ) (data : List (List ℚ)) (steps : Nat)
    (interpolate_period : Bool) : List ℚ × List (List ℚ) :=
  (interp_index idx steps interpolate_period,
   data.map fun col => interp_col col steps idx.length)

/-! ### Helper lemmas -/

/-- The scan of `get_data_cols` never hits the missing-column branch when
every scanned column is a member of `allCols`: it returns the labels of the
numeric columns in order. -/
theorem scanCols_ok (all : List Column) (l : List Column) (h : ∀ c ∈ l, c ∈ all) :
    scanCols all l = .ok ((l.filter fun c => c.isNumeric).map fun c => c.name) := by
  induction l with
  | nil => rfl
  | cons c rest ih =>
    have hc : c ∈ all := h c (by simp)
    have hrest := ih (fun x hx => h x (by simp [hx]))
    simp only [scanCols, if_pos hc, hrest, List.filter_cons]
    cases hn : c.isNumeric <;> simp

/-- Closed form of `get_data_cols`: the numeric columns stringified in input
order, or the no-numeric-data error when there are none. -/
theorem get_data_cols_eq (cols : List Column) :
    get_data_cols cols =
      if (cols.filter fun c => c.isNumeric).isEmpty then Except.error no_numeric_msg
      else Except.ok ((cols.filter fun c => c.isNumeric).map fun c => toString c.name) := by
  rw [get_data_cols, scanCols_ok cols cols (fun _ hc => hc)]
  by_cases he : (cols.filter fun c => c.isNumeric) = [] <;>
    simp [he, List.map_map, Function.comp]

/-! ### Claims -/

/-- Claim C7: `get_data_cols` returns exactly the numeric columns,
stringified, in the input column order, and raises the no-numeric-data error
if and only if no column is numeric. -/
theorem get_data_cols_spec (cols : List Column) :
    get_data_cols cols =
      if (cols.filter fun c => c.isNumeric).isEmpty then Except.error no_numeric_msg
      else Except.ok ((cols.filter fun c => c.isNumeric).map fun c => toString c.name) :=
  get_data_cols_eq cols

/-- Claim C10: the missing-column branch of `get_data_cols` is unreachable:
scanning the columns of the table against its own column sequence always
succeeds (the membership check never fails), so the missing-column exception
is never raised. -/
theorem missing_column_unreachable (cols : List Column) :
    scanCols cols cols = Except.ok ((cols.filter fun c => c.isNumeric).map fun c => c.name) :=
  scanCols_ok cols cols (fun _ hc => hc)

/-- Claim C1: for a table with at least one row and `steps_per_period >= 1`,
`get_interpolated_df` keeps the columns and produces
`(original_row_count - 1) * steps_per_period + 1` rows; for
`steps_per_period = 1` the row count is unchanged. -/
theorem interpolated_row_count (idx : List ℚ) (data : List (List ℚ)) (steps : Nat)
    (ip : Bool) (hn : 1 ≤ idx.length) (hs : 1 ≤ steps) :
    (get_interpolated_df idx data steps ip).1.length = (idx.length - 1) * steps + 1 ∧
    (get_interpolated_df idx data steps ip).2.length = data.length ∧
    (∀ col ∈ (get_interpolated_df idx data steps ip).2,
      col.length = (idx.length - 1) * steps + 1) ∧
    (steps = 1 → (get_interpolated_df idx data steps ip).1.length = idx.length) := by
  refine ⟨?_, ?_, ?_, ?_⟩
  · simp [get_interpolated_df, interp_index, new_len]
  · simp [get_interpolated_df]
  · intro col hcol
    simp only [get_interpolated_df, List.mem_map] at hcol
    obtain ⟨c, hc, rfl⟩ := hcol
    simp [interp_col, new_len]
  · intro h1
    subst h1
    simp only [get_interpolated_df, interp_index, new_len, List.length_map,
      List.length_range]
    omega

/-- Witness for claim C1 at a table of 2 rows, 1 data column and
`steps_per_period = 2`. -/
theorem interpolated_row_count_witness :
    (get_interpolated_df [0, 1] [[5, 6]] 2 false).1.length =
      (([(0 : ℚ), 1] : List ℚ).length - 1) * 2 + 1 :=
  (interpolated_row_count [0, 1] [[5, 6]] 2 false (by decide) (by decide)).1

/-- Claim C5: the 3-row table with values `[1,2,3]`, `steps_per_period = 10`
and `interpolate_period = False` yields 21 rows, linearly interpolated data,
and an index column forward-filled in 10-row blocks. -/
theorem interpolation_scenario :
    get_interpolated_df [1990, 1991, 1992] [[1, 2, 3]] 10 false =
      ([1990, 1990, 1990, 1990, 1990, 1990, 1990, 1990, 1990, 1990,
        1991, 1991, 1991, 1991, 1991, 1991, 1991, 1991, 1991, 1991, 1992],
       [[1, 11/10, 6/5, 13/10, 7/5, 3/2, 8/5, 17/10, 9/5, 19/10,
         2, 21/10, 11/5, 23/10, 12/5, 5/2, 13/5, 27/10, 14/5, 29/10, 3]]) := by
  have hr : List.range (new_len ([(1990 : ℚ), 1991, 1992]).length 10) =
      [0, 1, 2, 3, 4, 5, 6, 7, 8, 9, 10, 11, 12, 13, 14, 15, 16, 17, 18, 19, 20] := rfl
  simp only [get_interpolated_df, interp_index, interp_col, hr, List.map_cons,
    List.map_nil, lin_val]
  norm_num

/-- The length of the text list after the label branch: a text is created
only from an empty list (and only when the label is on); otherwise the
length is unchanged. -/
theorem label_step_length (cfg : PeriodConfig) (idxStr : List String) (i : Nat)
    (texts : List String) :
    (label_step cfg idxStr i texts).length =
      if cfg.period_label = true ∧ texts.length = 0 then 1 else texts.length := by
  cases hb : cfg.period_label <;> by_cases h0 : texts.length = 0 <;>
    simp [label_step, hb, h0]

/-- Evaluation of `show_period` without a summary function. -/
theorem show_period_none (cfg : PeriodConfig) (idxStr : List String)
    (rows : List (List ℚ)) (i : Nat) (texts : List String)
    (hf : cfg.period_summary_func = none) :
    show_period cfg idxStr rows i texts = Except.ok (label_step cfg idxStr i texts) := by
  unfold show_period
  rw [hf]

/-- Evaluation of `show_period` with a summary function. -/
theorem show_period_some (cfg : PeriodConfig) (f : SummaryFn) (idxStr : List String)
    (rows : List (List ℚ)) (i : Nat) (texts : List String)
    (hf : cfg.period_summary_func = some f) :
    show_period cfg idxStr rows i texts =
      if sdict_hasKey (f.fn (rows.getD i [])) "x" = false ∨
          sdict_hasKey (f.fn (rows.getD i [])) "y" = false ∨
          sdict_hasKey (f.fn (rows.getD i [])) "s" = false then
        Except.error (summary_error_msg f.name)
      else if (label_step cfg idxStr i texts).length ≠ 2 then
        Except.ok (label_step cfg idxStr i texts ++ [((f.fn (rows.getD i [])).lookup "s").getD ""])
      else
        Except.ok ((label_step cfg idxStr i texts).set 1 (((f.fn (rows.getD i [])).lookup "s").getD "")) := by
  unfold show_period
  rw [hf]

/-- A successful `show_period` step keeps the number of text elements at
most 2. -/
theorem show_period_le_two (cfg : PeriodConfig) (idxStr : List String)
    (rows : List (List ℚ)) (i : Nat) (ts t2 : List String) (hle : ts.length ≤ 2)
    (h : show_period cfg idxStr rows i ts = Except.ok t2) : t2.length ≤ 2 := by
  have h1 : (label_step cfg idxStr i ts).length ≤ 2 := by
    rw [label_step_length]; split <;> omega
  cases hsf : cfg.period_summary_func with
  | none =>
    rw [show_period_none cfg idxStr rows i ts hsf] at h
    simp only [Except.ok.injEq] at h
    exact h ▸ h1
  | some f =>
    rw [show_period_some cfg f idxStr rows i ts hsf] at h
    by_cases hmiss : sdict_hasKey (f.fn (rows.getD i [])) "x" = false ∨
        sdict_hasKey (f.fn (rows.getD i [])) "y" = false ∨
        sdict_hasKey (f.fn (rows.getD i [])) "s" = false
    · rw [if_pos hmiss] at h
      exact absurd h (by simp)
    · rw [if_neg hmiss] at h
      by_cases hlen : (label_step cfg idxStr i ts).length ≠ 2
      · rw [if_pos hlen] at h
        simp only [Except.ok.injEq] at h
        subst h
        simp only [List.length_append, List.length_singleton]
        omega
      · rw [if_neg hlen] at h
        simp only [Except.ok.injEq] at h
        subst h
        simp only [List.length_set]
        omega

/-- A `show_period` step from exactly 2 text elements updates in place: the
count stays exactly 2. -/
theorem show_period_eq_two (cfg : PeriodConfig) (idxStr : List String)
    (rows : List (List ℚ)) (i : Nat) (ts t2 : List String) (h2 : ts.length = 2)
    (h : show_period cfg idxStr rows i ts = Except.ok t2) : t2.length = 2 := by
  have h1 : (label_step cfg idxStr i ts).length = 2 := by
    rw [label_step_length]; split <;> omega
  cases hsf : cfg.period_summary_func with
  | none =>
    rw [show_period_none cfg idxStr rows i ts hsf] at h
    simp only [Except.ok.injEq] at h
    exact h ▸ h1
  | some f =>
    rw [show_period_some cfg f idxStr rows i ts hsf] at h
    by_cases hmiss : sdict_hasKey (f.fn (rows.getD i [])) "x" = false ∨
        sdict_hasKey (f.fn (rows.getD i [])) "y" = false ∨
        sdict_hasKey (f.fn (rows.getD i [])) "s" = false
    · rw [if_pos hmiss] at h
      exact absurd h (by simp)
    · rw [if_neg hmiss] at h
      rw [if_neg (by omega)] at h
      simp only [Except.ok.injEq] at h
      subst h
      simp only [List.length_set]
      exact h1

/-- Running `show_period` over any frame sequence from at most 2 text
elements keeps at most 2 text elements. -/
theorem show_period_run_le_two (cfg : PeriodConfig) (idxStr : List String)
    (rows : List (List ℚ)) (frames : List Nat) :
    ∀ ts t' : List String, ts.length ≤ 2 →
      show_period_run cfg idxStr rows frames ts = Except.ok t' → t'.length ≤ 2 := by
  induction frames with
  | nil =>
    intro ts t' hle h
    cases h
    exact hle
  | cons i is ih =>
    intro ts t' hle h
    unfold show_period_run at h
    cases hsp : show_period cfg idxStr rows i ts with
    | error e => rw [hsp] at h; cases h
    | ok t2 =>
      rw [hsp] at h
      exact ih t2 t' (show_period_le_two cfg idxStr rows i ts t2 hle hsp) h

/-- Claim C2 (corrected): starting from an axes with no text elements,
any sequence of `show_period` frames leaves at most 2 text elements, and
once both elements exist a frame updates them in place (the count stays 2).
The original claim's sharper form — at most one element ever created for the
summary — fails when `period_label` is falsy, see the counterexample. -/
theorem show_period_text_count (cfg : PeriodConfig) (idxStr : List String)
    (rows : List (List ℚ)) (frames : List Nat) (t' : List String)
    (h : show_period_run cfg idxStr rows frames [] = Except.ok t') :
    t'.length ≤ 2 ∧
    (∀ (i : Nat) (ts t2 : List String), ts.length = 2 →
      show_period cfg idxStr rows i ts = Except.ok t2 → t2.length = 2) :=
  ⟨show_period_run_le_two cfg idxStr rows frames [] t' (by simp) h,
   fun i ts t2 h2 hsp => show_period_eq_two cfg idxStr rows i ts t2 h2 hsp⟩

/-- Witness for claim C2: with the period label on and a summary function
set, three frames from an empty axes end with exactly the 2 text elements
`["c", "total"]`. -/
theorem show_period_text_count_witness : (["c", "total"] : List String).length ≤ 2 :=
  (show_period_text_count
    ⟨true, none, some ⟨"f", fun _ => [("x", "0"), ("y", "0"), ("s", "total")]⟩⟩
    ["a", "b", "c"] [[1], [2], [3]] [0, 1, 2] ["c", "total"] rfl).1

/-- Counterexample to claim C2 as stated: with `period_label` falsy and a
summary function set, the second frame finds one text element,
`len(self.ax.texts) != 2` holds, and `ax.text` creates a second summary
element instead of updating the existing one — two text elements were
created for the summary. -/
theorem show_period_cex :
    show_period ⟨false, none, some ⟨"my_summary", fun _ => [("x", "0"), ("y", "0"), ("s", "total")]⟩⟩
      ["a", "b", "c"] [[1], [2], [3]] 0 [] = Except.ok ["total"] ∧
    show_period ⟨false, none, some ⟨"my_summary", fun _ => [("x", "0"), ("y", "0"), ("s", "total")]⟩⟩
      ["a", "b", "c"] [[1], [2], [3]] 1 ["total"] = Except.ok ["total", "total"] ∧
    ¬ ((["total", "total"] : List String).length ≤ 1) := by
  refine ⟨rfl, rfl, by decide⟩

/-- Claim C6: when the dict returned by `period_summary_func` misses any of
`"x"`, `"y"`, `"s"`, `show_period` raises the `ValueError` naming the
callable and no text element is created or updated by the summary branch
(the call produces no new text state at all); with all three keys present no
such error is raised. -/
theorem summary_validation (cfg : PeriodConfig) (f : SummaryFn) (idxStr : List String)
    (rows : List (List ℚ)) (i : Nat) (texts : List String)
    (hf : cfg.period_summary_func = some f) :
    ((sdict_hasKey (f.fn (rows.getD i [])) "x" = false ∨
      sdict_hasKey (f.fn (rows.getD i [])) "y" = false ∨
      sdict_hasKey (f.fn (rows.getD i [])) "s" = false) →
      show_period cfg idxStr rows i texts = Except.error (summary_error_msg f.name)) ∧
    ((sdict_hasKey (f.fn (rows.getD i [])) "x" = true ∧
      sdict_hasKey (f.fn (rows.getD i [])) "y" = true ∧
      sdict_hasKey (f.fn (rows.getD i [])) "s" = true) →
      ∃ t2, show_period cfg idxStr rows i texts = Except.ok t2) := by
  constructor
  · intro hmiss
    rw [show_period_some cfg f idxStr rows i texts hf]
    rw [if_pos hmiss]
  · rintro ⟨hx, hy, hz⟩
    rw [show_period_some cfg f idxStr rows i texts hf]
    rw [if_neg (by rw [hx, hy, hz]; simp)]
    split
    · exact ⟨_, rfl⟩
    · exact ⟨_, rfl⟩

/-- Witness for claim C6: a summary function whose dict misses `"y"` makes
`show_period` raise the error naming `bad_summary`. -/
theorem summary_validation_witness :
    show_period ⟨false, none, some ⟨"bad_summary", fun _ => [("x", "0"), ("s", "t")]⟩⟩
      ["a"] [[1]] 0 [] = Except.error (summary_error_msg "bad_summary") :=
  (summary_validation ⟨false, none, some ⟨"bad_summary", fun _ => [("x", "0"), ("s", "t")]⟩⟩
    ⟨"bad_summary", fun _ => [("x", "0"), ("s", "t")]⟩ ["a"] [[1]] 0 [] rfl).1
    (Or.inr (Or.inl (by decide)))

/-- Counterexample to claim C8 as stated: the empty dict is a dict missing
the `"x"` key, yet `get_period_label` raises no error — the empty dict is
falsy in Python, so the `if not period_label` branch returns `False`
first. -/
theorem period_label_empty_dict_cex :
    pdict_hasKey ([] : List (String × PVal)) "x" = false ∧
    get_period_label (.dict []) = Except.ok none :=
  ⟨rfl, rfl⟩

/-- Claim C8 (corrected): for every non-empty dict, `get_period_label`
raises the validation error if and only if the `"x"` key or the `"y"` key is
missing, and returns the dict unchanged when both are present; `True` yields
the default bottom-right placement; `False` and the (falsy) empty dict
return `False` without error. -/
theorem period_label_spec (d : List (String × PVal)) (hd : d ≠ []) :
    (get_period_label (.dict d) = Except.error period_label_error ↔
      (pdict_hasKey d "x" = false ∨ pdict_hasKey d "y" = false)) ∧
    (pdict_hasKey d "x" = true → pdict_hasKey d "y" = true →
      get_period_label (.dict d) = Except.ok (some d)) ∧
    get_period_label (.bool true) = Except.ok (some default_period_label) ∧
    get_period_label (.bool false) = Except.ok none ∧
    get_period_label (.dict []) = Except.ok none := by
  have htr : pl_truthy (.dict d) = true := by
    simp [pl_truthy, hd]
  refine ⟨?_, ?_, rfl, rfl, rfl⟩
  · by_cases hmiss : pdict_hasKey d "x" = false ∨ pdict_hasKey d "y" = false
    · simp only [get_period_label, htr]
      rw [if_neg (by simp)]
      rw [if_pos hmiss]
      simp [hmiss]
    · simp only [get_period_label, htr]
      rw [if_neg (by simp)]
      rw [if_neg hmiss]
      simp [hmiss]
  · intro hx hy
    simp only [get_period_label, htr]
    rw [if_neg (by simp)]
    rw [if_neg (by rw [hx, hy]; simp)]

/-- Witness for claim C8: the dict `{"x": 1}` is non-empty and missing
`"y"`, so `get_period_label` raises the validation error. -/
theorem period_label_spec_witness :
    get_period_label (.dict [("x", PVal.num 1)]) = Except.error period_label_error :=
  (period_label_spec [("x", PVal.num 1)] (by simp)).1.mpr (Or.inr rfl)

/-- Counterexample to claim C4 as stated: an explicit list of 1 color on a
table with 2 numeric data columns is returned as is, with length 1 < 2 —
`get_colors` does not pad a user-supplied list up to the number of data
series. -/
theorem colors_length_cex :
    get_colors (.colorList ["red"]) [⟨0, true⟩, ⟨1, true⟩] = Except.ok ["red"] ∧
    (["red"] : List String).length <
      (([⟨0, true⟩, ⟨1, true⟩] : List Column).filter fun c => c.isNumeric).length :=
  ⟨rfl, by decide⟩

/-- Claim C4 (corrected): the length guarantee holds only for the
single-named-color branch, where the returned list has length exactly the
number of numeric data columns; an explicit list (or array-like) is returned
unchanged, whatever its length; the `dark24` palette always has its 24
entries and a colormap its `N` entries, independent of the column count. -/
theorem colors_length_spec (c : String) (cols : List Column) (cs : List String) (n : Nat)
    (hnum : (cols.filter fun col => col.isNumeric) ≠ []) :
    get_colors (.singleColor c) cols =
      Except.ok (List.replicate ((cols.filter fun col => col.isNumeric).length) (to_rgba c)) ∧
    get_colors (.colorList cs) cols = Except.ok cs ∧
    get_colors (.arrayLike cs) cols = Except.ok cs ∧
    get_colors .dark24 cols = Except.ok DARK24 ∧
    DARK24.length = 24 ∧
    get_colors (.cmapName n) cols = Except.ok ((List.range n).map cmapEntry) ∧
    ((List.range n).map cmapEntry).length = n := by
  refine ⟨?_, rfl, rfl, rfl, rfl, rfl, by simp⟩
  have h : get_data_cols cols =
      Except.ok ((cols.filter fun col => col.isNumeric).map fun col => toString col.name) := by
    rw [get_data_cols_eq]
    rw [if_neg (by simp [hnum])]
  simp only [get_colors, h, List.length_map]

/-- Witness for claim C4 at a single named color and one numeric column. -/
theorem colors_length_spec_witness :
    get_colors (.singleColor "red") [⟨0, true⟩] =
      Except.ok (List.replicate ((([⟨0, true⟩] : List Column).filter fun col => col.isNumeric).length)
        (to_rgba "red")) :=
  (colors_length_spec "red" [⟨0, true⟩] [] 0 (by decide)).1

/-- Claim C9: an explicit list of `k` colors on a table with `k` numeric
data columns is returned by `get_colors` with length `k` and every element
unchanged (it is the input list itself). -/
theorem color_list_identity (cs : List String) (cols : List Column)
    (hk : cs.length = (cols.filter fun c => c.isNumeric).length) :
    get_colors (.colorList cs) cols = Except.ok cs ∧
    cs.length = (cols.filter fun c => c.isNumeric).length :=
  ⟨rfl, hk⟩

/-- Witness for claim C9: two colors for two numeric columns round-trip. -/
theorem color_list_identity_witness :
    get_colors (.colorList ["red", "blue"]) [⟨0, true⟩, ⟨1, true⟩] =
      Except.ok ["red", "blue"] :=
  (color_list_identity ["red", "blue"] [⟨0, true⟩, ⟨1, true⟩] (by decide)).1

/-- Every member of a list is at most its `vmax`. -/
theorem le_vmax_of_mem {l : List ℚ} {x : ℚ} (hx : x ∈ l) : x ≤ vmax l := by
  induction l with
  | nil => cases hx
  | cons a t ih =>
    cases t with
    | nil =>
      rw [List.mem_singleton] at hx
      subst hx
      exact le_refl (vmax [x])
    | cons b t2 =>
      rcases List.mem_cons.mp hx with rfl | hmem
      · exact le_max_left _ _
      · exact le_trans (ih hmem) (le_max_right _ _)

/-- `vmax` of a nonempty list is one of its members. -/
theorem vmax_mem {l : List ℚ} (h : l ≠ []) : vmax l ∈ l := by
  induction l with
  | nil => exact absurd rfl h
  | cons a t ih =>
    cases t with
    | nil => exact List.mem_singleton.mpr rfl
    | cons b t2 =>
      rcases max_choice a (vmax (b :: t2)) with hc | hc
    <;> rw [show vmax (a :: b :: t2) = max a (vmax (b :: t2)) from rfl, hc]
      · exact List.mem_cons_self a (b :: t2)
      · exact List.mem_cons_of_mem a (ih (by simp))

/-- Every member of a list is at least its `vmin`. -/
theorem vmin_le_of_mem {l : List ℚ} {x : ℚ} (hx : x ∈ l) : vmin l ≤ x := by
  induction l with
  | nil => cases hx
  | cons a t ih =>
    cases t with
    | nil =>
      rw [List.mem_singleton] at hx
      subst hx
      exact le_refl (vmin [x])
    | cons b t2 =>
      rcases List.mem_cons.mp hx with rfl | hmem
      · exact min_le_left _ _
      · exact le_trans (min_le_right _ _) (ih hmem)

/-- `vmin` of a nonempty list is one of its members. -/
theorem vmin_mem {l : List ℚ} (h : l ≠ []) : vmin l ∈ l := by
  induction l with
  | nil => exact absurd rfl h
  | cons a t ih =>
    cases t with
    | nil => exact List.mem_singleton.mpr rfl
    | cons b t2 =>
      rcases min_choice a (vmin (b :: t2)) with hc | hc
    <;> rw [show vmin (a :: b :: t2) = min a (vmin (b :: t2)) from rfl, hc]
      · exact List.mem_cons_self a (b :: t2)
      · exact List.mem_cons_of_mem a (ih (by simp))

/-- The values of the first `i + 1` rows are values of the full table. -/
theorem mem_flatten_of_mem_take {df : List (List ℚ)} {i : Nat} {x : ℚ}
    (hx : x ∈ (df.take (i + 1)).flatten) : x ∈ df.flatten := by
  rcases List.mem_flatten.mp hx with ⟨r, hr, hxr⟩
  exact List.mem_flatten.mpr ⟨r, List.take_subset _ _ hr, hxr⟩

/-- Claim C3: the y-padding of the axis scaler is 5% of the global range of
the entire table in both the `fixed_max` and the per-frame branch; the
bottom padding is suppressed exactly when the global minimum is >= 0 and the
top padding exactly when the global maximum is <= 0; hence for all-non-negative
data the lower y bound never goes below the data minimum. -/
theorem y_limits_spec (df : List (List ℚ)) (i : Nat)
    (hne : df.flatten ≠ []) (hf : (df.take (i + 1)).flatten ≠ []) :
    (0 ≤ vmin df.flatten →
      (y_limits df i true).1 = vmin df.flatten ∧
      (y_limits df i false).1 = vmin ((df.take (i + 1)).flatten)) ∧
    (¬ 0 ≤ vmin df.flatten →
      (y_limits df i true).1 =
        vmin df.flatten - (vmax df.flatten - vmin df.flatten) * (5 / 100) ∧
      (y_limits df i false).1 =
        vmin ((df.take (i + 1)).flatten) - (vmax df.flatten - vmin df.flatten) * (5 / 100)) ∧
    (vmax df.flatten ≤ 0 →
      (y_limits df i true).2 = vmax df.flatten ∧
      (y_limits df i false).2 = vmax ((df.take (i + 1)).flatten)) ∧
    (¬ vmax df.flatten ≤ 0 →
      (y_limits df i true).2 =
        vmax df.flatten + (vmax df.flatten - vmin df.flatten) * (5 / 100) ∧
      (y_limits df i false).2 =
        vmax ((df.take (i + 1)).flatten) + (vmax df.flatten - vmin df.flatten) * (5 / 100)) ∧
    ((∀ x ∈ df.flatten, 0 ≤ x) →
      vmin df.flatten ≤ (y_limits df i false).1 ∧
      vmin df.flatten ≤ (y_limits df i true).1) := by
  refine ⟨?_, ?_, ?_, ?_, ?_⟩
  · intro h0
    constructor <;> simp [y_limits, if_pos h0]
  · intro h0
    constructor <;> simp [y_limits, if_neg h0]
  · intro h0
    constructor <;> simp [y_limits, if_pos h0]
  · intro h0
    constructor <;> simp [y_limits, if_neg h0]
  · intro hpos
    have h0 : 0 ≤ vmin df.flatten := hpos _ (vmin_mem hne)
    have hsub : vmin df.flatten ≤ vmin ((df.take (i + 1)).flatten) :=
      vmin_le_of_mem (mem_flatten_of_mem_take (vmin_mem hf))
    constructor <;> simp [y_limits, if_pos h0]
    exact hsub

/-- Witness for claim C3 at a 2x2 all-positive table and frame 0: the lower
y bound of the per-frame branch does not go below the data minimum. -/
theorem y_limits_spec_witness :
    vmin ([[(1 : ℚ), 2], [3, 4]].flatten) ≤ (y_limits [[1, 2], [3, 4]] 0 false).1 :=
  ((y_limits_spec [[1, 2], [3, 4]] 0 (by decide) (by decide)).2.2.2.2 (by decide)).1

end PandasAlive
